import Mathlib

/-  A shallow embedding of the Brief VM (AshleyF/BriefEmbedded).

    The canonical source is src/src/Brief.cpp (the "later" variant); the earlier
    variant lives in src/Firmware/libraries/Brief/Brief.cpp and is modelled only
    where the two differ in ways the claims touch (its `lit8`, `frameReceived`).

    Modelling conventions:
    - `int16_t` variables and cells are modelled as `Int`; wherever the C code
      performs arithmetic that can leave the 16-bit range, the embedding applies
      the two's-complement wrap `toInt16` (AVR semantics).  `uint8_t` values are
      `Nat`, reduced mod 256 at the conversion points the C code has.
    - The C pointers `s` and `r` are modelled as the integer offset of the
      top-of-stack cell from the array base (`sIdx`, `rIdx`); the empty stack is
      offset `-1`, exactly as `s = dstack - 1` in the source.  The arrays are
      total maps `Int → Int` so that the source's unchecked accesses (including
      ones past either end of the C array) are representable and visible.
    - `Serial.write` output is accumulated in `serialOut`.
    - The only recursion in the VM is through `error`: stack and memory guards
      call `error`, which emits an event, whose emission uses the very same
      stack and memory operations.  The embedding threads an error continuation
      (`Err`) through the operations and ties the knot in `error` with a fuel
      argument, so that everything remains structurally recursive and
      kernel-computable.  `none` means the C program did not complete this
      operation (fuel exhausted models the unbounded error recursion of the
      source; `none` is also used for undefined behaviour such as division by
      zero and for the unmodelled platform primitives). -/

namespace brief

/-  Configuration constants, from src/Firmware/libraries/Brief/Brief.h (the only
    header present in the repository; src/src/Brief.cpp uses the same names). -/

def MEM_SIZE : Int := 512

def DATA_STACK_SIZE : Int := 4

def RETURN_STACK_SIZE : Int := 4

def MAX_PRIMITIVES : Nat := 128

def BOOT_EVENT_ID : Nat := 0xFF

def VM_EVENT_ID : Nat := 0xFE

def VM_ERROR_RETURN_STACK_UNDERFLOW : Nat := 0

def VM_ERROR_RETURN_STACK_OVERFLOW : Nat := 1

def VM_ERROR_DATA_STACK_UNDERFLOW : Nat := 2

def VM_ERROR_DATA_STACK_OVERFLOW : Nat := 3

def VM_ERROR_OUT_OF_MEMORY : Nat := 4

/-- Conversion to `uint8_t`: the low byte of a 16-bit (or wider) value. -/
def toByte (x : Int) : Nat := (x % 256).toNat

/-- High byte of the 16-bit two's-complement pattern of `x`; this is what
    `(uint8_t)(x >> 8)` produces for an `int16_t` `x` under AVR's arithmetic
    shift. -/
def hiByte (x : Int) : Nat := (x % 65536).toNat / 256

/-- Wrap an integer to the `int16_t` range (two's complement). -/
def toInt16 (x : Int) : Int :=
  if x % 65536 < 32768 then x % 65536 else x % 65536 - 65536

/-- Sign extension of a byte, as the C cast `(int8_t)b` widened back to 16 bit. -/
def toInt8 (b : Nat) : Int :=
  if b % 256 < 128 then ((b % 256 : Nat) : Int) else ((b % 256 : Nat) : Int) - 256

/-- Pointwise update of a byte map (a C array store). -/
def memUpd (f : Int → Nat) (a : Int) (v : Nat) : Int → Nat :=
  fun x => if x = a then v else f x

/-- Pointwise update of a cell map (a C `int16_t` array store). -/
def cellUpd (f : Int → Int) (a : Int) (v : Int) : Int → Int :=
  fun x => if x = a then v else f x

/-- The global state of the Brief VM (src/src/Brief.cpp file-scope variables). -/
@[ext] structure VM where
  memory : Int → Nat
  dstack : Int → Int
  sIdx : Int
  rstack : Int → Int
  rIdx : Int
  p : Int
  here : Int
  last : Int
  eventBuffer : Int
  loopword : Int
  loopIterations : Int
  serialOut : List Nat

/-- An error continuation: what `error(code)` does at the current recursion
    depth.  The concrete VM operations are written against this, and `error`
    below closes the loop. -/
abbrev Err : Type := VM → Nat → Option VM

/-- `memget` (fetch with bounds checking): `if (address < 0 || address >= MEM_SIZE)
    { error(VM_ERROR_OUT_OF_MEMORY); return 0; } return memory[address];` -/
def memgetWith (err : Err) (vm : VM) (address : Int) : Option (VM × Nat) :=
  if address < 0 ∨ MEM_SIZE ≤ address then do
    let vm ← err vm VM_ERROR_OUT_OF_MEMORY
    pure (vm, 0)
  else
    pure (vm, vm.memory address)

/-- `memset` (store with bounds checking): `if (address >= MEM_SIZE)
    { error(VM_ERROR_OUT_OF_MEMORY); } else { memory[address] = value; }`.
    Note the source checks only the upper bound here. -/
def memsetWith (err : Err) (vm : VM) (address : Int) (value : Nat) : Option VM :=
  if MEM_SIZE ≤ address then
    err vm VM_ERROR_OUT_OF_MEMORY
  else
    pure { vm with memory := memUpd vm.memory address value }

/-- `push`: `if (s >= dstack + DATA_STACK_SIZE) { error(VM_ERROR_DATA_STACK_OVERFLOW); }
    else { *(++s) = x; }`.  The guard fires only once the top-of-stack offset has
    reached `DATA_STACK_SIZE`, i.e. after `DATA_STACK_SIZE + 1` elements. -/
def pushWith (err : Err) (vm : VM) (x : Int) : Option VM :=
  if DATA_STACK_SIZE ≤ vm.sIdx then
    err vm VM_ERROR_DATA_STACK_OVERFLOW
  else
    pure { vm with sIdx := vm.sIdx + 1, dstack := cellUpd vm.dstack (vm.sIdx + 1) x }

/-- `pop`: `if (s < dstack) { error(VM_ERROR_DATA_STACK_UNDERFLOW); } else { return *s--; }`.
    In the underflow branch the C function falls off its end without a return
    value (an indeterminate value); the embedding uses 0 for that value. -/
def popWith (err : Err) (vm : VM) : Option (VM × Int) :=
  if vm.sIdx < 0 then do
    let vm ← err vm VM_ERROR_DATA_STACK_UNDERFLOW
    pure (vm, 0)
  else
    pure ({ vm with sIdx := vm.sIdx - 1 }, vm.dstack vm.sIdx)

/-- `rpush`, with the same guard shape as `push`. -/
def rpushWith (err : Err) (vm : VM) (x : Int) : Option VM :=
  if RETURN_STACK_SIZE ≤ vm.rIdx then
    err vm VM_ERROR_RETURN_STACK_OVERFLOW
  else
    pure { vm with rIdx := vm.rIdx + 1, rstack := cellUpd vm.rstack (vm.rIdx + 1) x }

/-- `rpop`, with the same underflow shape as `pop` (indeterminate value → 0). -/
def rpopWith (err : Err) (vm : VM) : Option (VM × Int) :=
  if vm.rIdx < 0 then do
    let vm ← err vm VM_ERROR_RETURN_STACK_UNDERFLOW
    pure (vm, 0)
  else
    pure ({ vm with rIdx := vm.rIdx - 1 }, vm.rstack vm.rIdx)

/-- `eventHeader`: `eventBuffer = here; memset(eventBuffer++, pop());`.
    The argument write `eventBuffer++` takes effect before `memset`'s body runs
    (and AVR gcc evaluates the `pop()` argument first). -/
def eventHeaderWith (err : Err) (vm : VM) : Option VM := do
  let vm := { vm with eventBuffer := vm.here }
  let (vm, v) ← popWith err vm
  let addr := vm.eventBuffer
  let vm := { vm with eventBuffer := addr + 1 }
  memsetWith err vm addr (toByte v)

/-- `eventBody8`: `memset(eventBuffer++, pop());` -/
def eventBody8With (err : Err) (vm : VM) : Option VM := do
  let (vm, v) ← popWith err vm
  let addr := vm.eventBuffer
  let vm := { vm with eventBuffer := addr + 1 }
  memsetWith err vm addr (toByte v)

/-- `eventBody16`: `int16_t val = pop(); memset(eventBuffer++, val >> 8);
    memset(eventBuffer++, val);` -/
def eventBody16With (err : Err) (vm : VM) : Option VM := do
  let (vm, val) ← popWith err vm
  let a1 := vm.eventBuffer
  let vm := { vm with eventBuffer := a1 + 1 }
  let vm ← memsetWith err vm a1 (hiByte val)
  let a2 := vm.eventBuffer
  let vm := { vm with eventBuffer := a2 + 1 }
  memsetWith err vm a2 (toByte val)

/-- `eventFooter`: `byte len = eventBuffer - here; Serial.write(len - 1);
    for (int16_t i = 0; i < len; i++) Serial.write(memget(here + i)); Serial.flush();`.
    `len` is a `byte`, so the `int16_t` difference is truncated mod 256, and
    `len - 1` wraps to 255 when `len = 0`. -/
def eventFooterWith (err : Err) (vm : VM) : Option VM :=
  let len : Nat := toByte ((vm.eventBuffer - vm.here : Int))
  let vm := { vm with serialOut := vm.serialOut ++ [toByte ((len : Int) - 1)] }
  (List.range len).foldlM
    (fun vm (i : Nat) => do
      let (vm, b) ← memgetWith err vm (vm.here + (i : Int))
      pure { vm with serialOut := vm.serialOut ++ [b] })
    vm

/-- `event(uint8_t id, int16_t val)` — the scalar-event helper:
    `push(id); eventHeader(); if (val != 0) { if (val >= INT8_MIN && val <= INT8_MAX)
    { push(val); eventBody8(); } else { push(val); eventBody16(); } } eventFooter();` -/
def eventWith (err : Err) (vm : VM) (id : Nat) (val : Int) : Option VM := do
  let vm ← pushWith err vm ((id % 256 : Nat) : Int)
  let vm ← eventHeaderWith err vm
  let vm ←
    if val ≠ 0 then
      if -128 ≤ val ∧ val ≤ 127 then do
        let vm ← pushWith err vm val
        eventBody8With err vm
      else do
        let vm ← pushWith err vm val
        eventBody16With err vm
    else
      pure vm
  eventFooterWith err vm

/-- `error(uint8_t code)` in src/src/Brief.cpp: `event(code, VM_EVENT_ID);`.
    Note that the id argument is the error code and the value argument the
    constant `VM_EVENT_ID` — this is the call exactly as written in the source.
    The fuel bounds the recursion `error → event → push/… → error`, which the C
    code leaves unbounded. -/
def error : Nat → VM → Nat → Option VM
  | 0, _, _ => none
  | n + 1, vm, code => eventWith (error n) vm code ((VM_EVENT_ID : Nat) : Int)

/-  Fueled entry points for the basic operations. -/

def memget (fuel : Nat) (vm : VM) (address : Int) : Option (VM × Nat) :=
  memgetWith (error fuel) vm address

def memset (fuel : Nat) (vm : VM) (address : Int) (value : Nat) : Option VM :=
  memsetWith (error fuel) vm address value

def push (fuel : Nat) (vm : VM) (x : Int) : Option VM :=
  pushWith (error fuel) vm x

def pop (fuel : Nat) (vm : VM) : Option (VM × Int) :=
  popWith (error fuel) vm

def rpush (fuel : Nat) (vm : VM) (x : Int) : Option VM :=
  rpushWith (error fuel) vm x

def rpop (fuel : Nat) (vm : VM) : Option (VM × Int) :=
  rpopWith (error fuel) vm

def eventHeader (fuel : Nat) (vm : VM) : Option VM :=
  eventHeaderWith (error fuel) vm

def eventBody8 (fuel : Nat) (vm : VM) : Option VM :=
  eventBody8With (error fuel) vm

def eventBody16 (fuel : Nat) (vm : VM) : Option VM :=
  eventBody16With (error fuel) vm

def eventFooter (fuel : Nat) (vm : VM) : Option VM :=
  eventFooterWith (error fuel) vm

def event (fuel : Nat) (vm : VM) (id : Nat) (val : Int) : Option VM :=
  eventWith (error fuel) vm id val

/-  The primitive Brief instructions of src/src/Brief.cpp, in source order.
    Each models the body of the like-named C function. -/

/-- `ret`: `p = rpop();` -/
def ret (fuel : Nat) (vm : VM) : Option VM := do
  let (vm, a) ← rpop fuel vm
  pure { vm with p := a }

/-- `eventOp`: `int8_t id = pop(); int16_t val = pop(); event(id, val);`
    (the id is truncated to a byte on the way into `event`). -/
def eventOp (fuel : Nat) (vm : VM) : Option VM := do
  let (vm, idv) ← pop fuel vm
  let (vm, val) ← pop fuel vm
  event fuel vm (toByte idv) val

/-- `mem16` helper: `(int16_t)memget(a) << 8 | memget(a + 1)` — the shifted high
    byte and the or produce the two's-complement 16-bit pattern `hi*256 + lo`. -/
def mem16 (fuel : Nat) (vm : VM) (address : Int) : Option (VM × Int) := do
  let (vm, hi) ← memget fuel vm address
  let (vm, lo) ← memget fuel vm (address + 1)
  pure (vm, toInt16 ((hi : Int) * 256 + (lo : Int)))

/-- `fetch8`: `*s = memget(*s);` (unchecked top-of-stack access). -/
def fetch8 (fuel : Nat) (vm : VM) : Option VM := do
  let (vm, b) ← memget fuel vm (vm.dstack vm.sIdx)
  pure { vm with dstack := cellUpd vm.dstack vm.sIdx (b : Int) }

/-- `store8`: `memset(pop(), (uint8_t)pop());` (address popped first, value
    second, matching the sequenced form used by `store16`). -/
def store8 (fuel : Nat) (vm : VM) : Option VM := do
  let (vm, a) ← pop fuel vm
  let (vm, v) ← pop fuel vm
  memset fuel vm a (toByte v)

/-- `fetch16`: `int16_t a = *s; *s = mem16(a);` -/
def fetch16 (fuel : Nat) (vm : VM) : Option VM := do
  let (vm, v) ← mem16 fuel vm (vm.dstack vm.sIdx)
  pure { vm with dstack := cellUpd vm.dstack vm.sIdx v }

/-- `store16`: `int16_t a = pop(), v = pop(); memset(a, v >> 8); memset(a + 1, v);` -/
def store16 (fuel : Nat) (vm : VM) : Option VM := do
  let (vm, a) ← pop fuel vm
  let (vm, v) ← pop fuel vm
  let vm ← memset fuel vm a (hiByte v)
  memset fuel vm (a + 1) (toByte v)

/-- `lit8` in src/src/Brief.cpp: `push(memget(p++));`.  `memget` returns
    `uint8_t`, so the operand is zero-extended into the pushed cell. -/
def lit8 (fuel : Nat) (vm : VM) : Option VM := do
  let (vm, b) ← memget fuel vm vm.p
  let vm := { vm with p := vm.p + 1 }
  push fuel vm ((b : Nat) : Int)

/-- `lit16`: `push(mem16(p++)); p++;` -/
def lit16 (fuel : Nat) (vm : VM) : Option VM := do
  let (vm, v) ← mem16 fuel vm vm.p
  let vm := { vm with p := vm.p + 2 }
  push fuel vm v

/-- Shared shape of the binary ALU operations: `int16_t x = pop(); *s = *s ⊕ x;`
    (the second operand is read after the pop moved the top-of-stack offset). -/
def binop (fuel : Nat) (vm : VM) (f : Int → Int → Int) : Option VM := do
  let (vm, x) ← pop fuel vm
  pure { vm with dstack := cellUpd vm.dstack vm.sIdx (f (vm.dstack vm.sIdx) x) }

def add (fuel : Nat) (vm : VM) : Option VM :=
  binop fuel vm (fun a x => toInt16 (a + x))

def sub (fuel : Nat) (vm : VM) : Option VM :=
  binop fuel vm (fun a x => toInt16 (a - x))

def mul (fuel : Nat) (vm : VM) : Option VM :=
  binop fuel vm (fun a x => toInt16 (a * x))

/-- `div`: C integer division truncates toward zero; division by zero is
    undefined behaviour and is left unmodelled (`none`). -/
def div (fuel : Nat) (vm : VM) : Option VM := do
  let (vm, x) ← pop fuel vm
  if x = 0 then none
  else pure { vm with dstack := cellUpd vm.dstack vm.sIdx (toInt16 ((vm.dstack vm.sIdx).tdiv x)) }

/-- `mod`: C `%` pairs with truncating division; by zero is UB (`none`). -/
def mod (fuel : Nat) (vm : VM) : Option VM := do
  let (vm, x) ← pop fuel vm
  if x = 0 then none
  else pure { vm with dstack := cellUpd vm.dstack vm.sIdx (toInt16 ((vm.dstack vm.sIdx).tmod x)) }

/-- Bitwise operation on the 16-bit two's-complement patterns of two cells. -/
def bw16 (f : Nat → Nat → Nat) (a b : Int) : Int :=
  toInt16 ((f ((a % 65536).toNat) ((b % 65536).toNat) : Nat) : Int)

def andb (fuel : Nat) (vm : VM) : Option VM :=
  binop fuel vm (bw16 (· &&& ·))

def orb (fuel : Nat) (vm : VM) : Option VM :=
  binop fuel vm (bw16 (· ||| ·))

def xorb (fuel : Nat) (vm : VM) : Option VM :=
  binop fuel vm (bw16 (· ^^^ ·))

/-- `shift`: `int16_t x = pop(); if (x < 0) *s = *s << -x; else *s = *s >> x;`
    (left shift wraps mod 2¹⁶; right shift is AVR's arithmetic shift, i.e.
    floor division by 2^x). -/
def shift (fuel : Nat) (vm : VM) : Option VM := do
  let (vm, x) ← pop fuel vm
  let a := vm.dstack vm.sIdx
  let v := if x < 0 then toInt16 (a * 2 ^ (-x).toNat) else a.fdiv (2 ^ x.toNat)
  pure { vm with dstack := cellUpd vm.dstack vm.sIdx v }

/-- `boolval` helper: `return b ? 0xFFFF : 0;` — as an `int16_t`, truth is -1. -/
def boolval (b : Bool) : Int := if b then -1 else 0

def eq (fuel : Nat) (vm : VM) : Option VM :=
  binop fuel vm (fun a x => boolval (a = x))

def neq (fuel : Nat) (vm : VM) : Option VM :=
  binop fuel vm (fun a x => boolval (a ≠ x))

def gt (fuel : Nat) (vm : VM) : Option VM :=
  binop fuel vm (fun a x => boolval (x < a))

def geq (fuel : Nat) (vm : VM) : Option VM :=
  binop fuel vm (fun a x => boolval (x ≤ a))

def lt (fuel : Nat) (vm : VM) : Option VM :=
  binop fuel vm (fun a x => boolval (a < x))

def leq (fuel : Nat) (vm : VM) : Option VM :=
  binop fuel vm (fun a x => boolval (a ≤ x))

/-- `not`: `*s = ~(*s);` (bitwise complement; stays in the int16 range). -/
def notb (vm : VM) : Option VM :=
  pure { vm with dstack := cellUpd vm.dstack vm.sIdx (-(vm.dstack vm.sIdx) - 1) }

/-- `neg`: `*s = -(*s);` (wraps at INT16_MIN). -/
def neg (vm : VM) : Option VM :=
  pure { vm with dstack := cellUpd vm.dstack vm.sIdx (toInt16 (-(vm.dstack vm.sIdx))) }

def inc (vm : VM) : Option VM :=
  pure { vm with dstack := cellUpd vm.dstack vm.sIdx (toInt16 (vm.dstack vm.sIdx + 1)) }

def dec (vm : VM) : Option VM :=
  pure { vm with dstack := cellUpd vm.dstack vm.sIdx (toInt16 (vm.dstack vm.sIdx - 1)) }

/-- `drop`: `s--;` — no bounds check of any kind. -/
def drop (vm : VM) : Option VM :=
  pure { vm with sIdx := vm.sIdx - 1 }

/-- `dup`: `push(*s);` -/
def dup (fuel : Nat) (vm : VM) : Option VM :=
  push fuel vm (vm.dstack vm.sIdx)

/-- `swap`: exchange the top two cells (unchecked). -/
def swap (vm : VM) : Option VM :=
  let t := vm.dstack vm.sIdx
  let n := vm.dstack (vm.sIdx - 1)
  pure { vm with dstack := cellUpd (cellUpd vm.dstack vm.sIdx n) (vm.sIdx - 1) t }

/-- `pick`: `int16_t n = pop(); push(*(s - n));` -/
def pick (fuel : Nat) (vm : VM) : Option VM := do
  let (vm, n) ← pop fuel vm
  push fuel vm (vm.dstack (vm.sIdx - n))

/-- `roll`: `int16_t n = pop(), t = *(s - n); for (i = s - n; i < s; i++)
    *i = *(i + 1); *s = t;` -/
def roll (fuel : Nat) (vm : VM) : Option VM := do
  let (vm, n) ← pop fuel vm
  let t := vm.dstack (vm.sIdx - n)
  let shifted : Int → Int :=
    fun j => if vm.sIdx - n ≤ j ∧ j < vm.sIdx then vm.dstack (j + 1) else vm.dstack j
  pure { vm with dstack := cellUpd shifted vm.sIdx t }

/-- `clr`: `s = dstack - 1;` -/
def clr (vm : VM) : Option VM :=
  pure { vm with sIdx := -1 }

/-- `pushr`: `rpush(pop());` -/
def pushr (fuel : Nat) (vm : VM) : Option VM := do
  let (vm, x) ← pop fuel vm
  rpush fuel vm x

/-- `popr`: `push(rpop());` -/
def popr (fuel : Nat) (vm : VM) : Option VM := do
  let (vm, x) ← rpop fuel vm
  push fuel vm x

/-- `peekr`: `push(*r);` (unchecked top-of-return-stack read). -/
def peekr (fuel : Nat) (vm : VM) : Option VM :=
  push fuel vm (vm.rstack vm.rIdx)

/-- `forget`: `int16_t i = pop(); if (i < here) here = i;` -/
def forget (fuel : Nat) (vm : VM) : Option VM := do
  let (vm, i) ← pop fuel vm
  if i < vm.here then pure { vm with here := i } else pure vm

/-- `call`: `rpush(p); p = pop();` -/
def call (fuel : Nat) (vm : VM) : Option VM := do
  let vm ← rpush fuel vm vm.p
  let (vm, a) ← pop fuel vm
  pure { vm with p := a }

/-- `quote`: `uint8_t len = memget(p++); push(p); p += len;` -/
def quote (fuel : Nat) (vm : VM) : Option VM := do
  let (vm, len) ← memget fuel vm vm.p
  let vm := { vm with p := vm.p + 1 }
  let vm ← push fuel vm vm.p
  pure { vm with p := vm.p + (len : Int) }

/-- `choice`: `int16_t f = pop(), t = pop(); rpush(p); p = pop() == 0 ? f : t;` -/
def choice (fuel : Nat) (vm : VM) : Option VM := do
  let (vm, f) ← pop fuel vm
  let (vm, t) ← pop fuel vm
  let vm ← rpush fuel vm vm.p
  let (vm, pred) ← pop fuel vm
  pure { vm with p := if pred = 0 then f else t }

/-- `chooseIf`: `int16_t t = pop(); if (pop() != 0) { rpush(p); p = t; }` -/
def chooseIf (fuel : Nat) (vm : VM) : Option VM := do
  let (vm, t) ← pop fuel vm
  let (vm, pred) ← pop fuel vm
  if pred ≠ 0 then do
    let vm ← rpush fuel vm vm.p
    pure { vm with p := t }
  else
    pure vm

/-- `next`: `int16_t count = rpop() - 1; int16_t rel = memget(p++);
    if (count > 0) { rpush(count); p -= (rel + 2); }` -/
def next (fuel : Nat) (vm : VM) : Option VM := do
  let (vm, c) ← rpop fuel vm
  let count := toInt16 (c - 1)
  let (vm, rel) ← memget fuel vm vm.p
  let vm := { vm with p := vm.p + 1 }
  if 0 < count then do
    let vm ← rpush fuel vm count
    pure { vm with p := vm.p - ((rel : Int) + 2) }
  else
    pure vm

/-- `nop` -/
def nop (vm : VM) : Option VM :=
  pure vm

/-- `loopTicks`: `push(loopIterations & 0x7FFF);` -/
def loopTicks (fuel : Nat) (vm : VM) : Option VM :=
  push fuel vm ((((vm.loopIterations % 65536).toNat &&& 0x7FFF : Nat)) : Int)

/-- `setLoop`: `loopIterations = 0; loopword = pop();` -/
def setLoop (fuel : Nat) (vm : VM) : Option VM := do
  let vm := { vm with loopIterations := 0 }
  let (vm, w) ← pop fuel vm
  pure { vm with loopword := w }

/-- `stopLoop`: `loopword = -1;` -/
def stopLoop (vm : VM) : Option VM :=
  pure { vm with loopword := -1 }

/-- `resetBoard`: `clr(); here = last = 0; loopword = -1; loopIterations = 0;` -/
def resetBoard (vm : VM) : Option VM :=
  pure { vm with sIdx := -1, here := 0, last := 0, loopword := -1, loopIterations := 0 }

/-- The instruction dispatch table as populated by `setup()` (`bind(0, ret)` …
    `bind(59, nop)`).  Opcodes 49–57 are thin wrappers around Arduino platform
    calls (GPIO, interrupts, timing); their external effects are outside this
    embedding and they are mapped to `none` (unmodelled), as are the opcodes
    `setup()` never binds (whose C function pointers are uninitialised). -/
def execInstr (fuel : Nat) (vm : VM) (op : Nat) : Option VM :=
  match op with
  | 0 => ret fuel vm
  | 1 => lit8 fuel vm
  | 2 => lit16 fuel vm
  | 3 => quote fuel vm
  | 4 => eventHeader fuel vm
  | 5 => eventBody8 fuel vm
  | 6 => eventBody16 fuel vm
  | 7 => eventFooter fuel vm
  | 8 => eventOp fuel vm
  | 9 => fetch8 fuel vm
  | 10 => store8 fuel vm
  | 11 => fetch16 fuel vm
  | 12 => store16 fuel vm
  | 13 => add fuel vm
  | 14 => sub fuel vm
  | 15 => mul fuel vm
  | 16 => div fuel vm
  | 17 => mod fuel vm
  | 18 => andb fuel vm
  | 19 => orb fuel vm
  | 20 => xorb fuel vm
  | 21 => shift fuel vm
  | 22 => eq fuel vm
  | 23 => neq fuel vm
  | 24 => gt fuel vm
  | 25 => geq fuel vm
  | 26 => lt fuel vm
  | 27 => leq fuel vm
  | 28 => notb vm
  | 29 => neg vm
  | 30 => inc vm
  | 31 => dec vm
  | 32 => drop vm
  | 33 => dup fuel vm
  | 34 => swap vm
  | 35 => pick fuel vm
  | 36 => roll fuel vm
  | 37 => clr vm
  | 38 => pushr fuel vm
  | 39 => popr fuel vm
  | 40 => peekr fuel vm
  | 41 => forget fuel vm
  | 42 => call fuel vm
  | 43 => choice fuel vm
  | 44 => chooseIf fuel vm
  | 45 => loopTicks fuel vm
  | 46 => setLoop fuel vm
  | 47 => stopLoop vm
  | 48 => resetBoard vm
  | 58 => next fuel vm
  | 59 => nop vm
  | _ => none

/-- One iteration of the body of `run()`:
    `i = memget(p++); if ((i & 0x80) == 0) instructions[i](); else {
    if (memget(p + 1) != 0) rpush(p + 1); p = ((i << 8) & 0x7F00) | memget(p); }` -/
def runStep (fuel : Nat) (vm : VM) : Option VM := do
  let (vm, i) ← memget fuel vm vm.p
  let vm := { vm with p := vm.p + 1 }
  if i &&& 0x80 = 0 then
    execInstr fuel vm i
  else do
    let (vm, nxt) ← memget fuel vm (vm.p + 1)
    let vm ← if nxt ≠ 0 then rpush fuel vm (vm.p + 1) else pure vm
    let (vm, lo) ← memget fuel vm vm.p
    pure { vm with p := ((((i <<< 8) &&& 0x7F00) ||| lo : Nat) : Int) }

/-- `run()`: the do-while loop `do { … } while (p >= 0);`.  The fuel bounds the
    number of iterations (Brief programs may loop forever by tail recursion). -/
def run : Nat → VM → Option VM
  | 0, _ => none
  | fuel + 1, vm => do
      let vm ← runStep fuel vm
      if 0 ≤ vm.p then run fuel vm else pure vm

/-- `exec(address)`: `r = rstack - 1; rpush(-1); p = address; run();` -/
def exec (fuel : Nat) (vm : VM) (address : Int) : Option VM := do
  let vm := { vm with rIdx := -1 }
  let vm ← rpush fuel vm (-1)
  let vm := { vm with p := address }
  run fuel vm

/-- The payload-writing loop of `loop()`:
    `for (; len > 0; len--) { while(!Serial.available()); memset(here++, Serial.read()); }`.
    The input list models the serial stream; running out of input models the
    blocking wait (`none`).  `here++` takes effect before `memset`'s body runs. -/
def intakeWrite (fuel : Nat) : VM → List Nat → Nat → Option (VM × List Nat)
  | vm, input, 0 => pure (vm, input)
  | _, [], _ + 1 => none
  | vm, b :: rest, len + 1 => do
      let addr := vm.here
      let vm := { vm with here := vm.here + 1 }
      let vm ← memset fuel vm addr (b % 256)
      intakeWrite fuel vm rest len

/-- The serial-intake half of `loop()` in src/src/Brief.cpp:
    `int8_t b = Serial.read(); bool isExec = (b & 0x80) == 0x80;
    int8_t len = b & 0x7f; …write len bytes…;
    if (isExec) { memset(here++, 0); here = last; exec(here); } else { last = here; }`.
    An empty input list models `Serial.available()` returning false. -/
def loopIntake (fuel : Nat) (vm : VM) (input : List Nat) : Option VM :=
  match input with
  | [] => pure vm
  | b :: rest => do
      let len := b &&& 0x7F
      let (vm, _) ← intakeWrite fuel vm rest len
      if b &&& 0x80 = 0x80 then do
        let addr := vm.here
        let vm := { vm with here := vm.here + 1 }
        let vm ← memset fuel vm addr 0
        let vm := { vm with here := vm.last }
        exec fuel vm vm.here
      else
        pure { vm with last := vm.here }

/-  The earlier (Firmware) variant, modelled only where the claims compare the
    two sources. -/

/-- `lit8` in src/Firmware/libraries/Brief/Brief.cpp: `push((int8_t)mem(p++));` —
    unlike the later source, the operand byte is sign-extended.  The stack and
    memory plumbing is shared with the later model; on the paths exercised below
    the two variants' `push`/`mem` agree. -/
def fwLit8 (fuel : Nat) (vm : VM) : Option VM := do
  let (vm, b) ← memget fuel vm vm.p
  let vm := { vm with p := vm.p + 1 }
  push fuel vm (toInt8 b)

/-- `frameReceived` in src/Firmware/libraries/Brief/Brief.cpp.  The Reflecta
    layer has already written the frame bytes at `here` (frameAllocation), so
    this function only adjusts the cursors:
    `last = here; here += frameLength - 1; bool isExec = memory[here] == 0;
    if (isExec) { memset(here++, 0); } if (here > locals) { error(OUT_OF_MEMORY); }
    else if (isExec) { here = last; exec(here); }`.
    The immediate-execution branch re-enters the (earlier) interpreter and the
    error branch emits through the Reflecta transport; both are outside what the
    claims need from this variant and are left unmodelled (`none`). -/
def fwFrameReceived (vm : VM) (locals : Int) (frameLength : Nat) : Option VM :=
  let vm := { vm with last := vm.here }
  let vm := { vm with here := vm.here + (frameLength : Int) - 1 }
  if vm.memory vm.here = 0 then
    none
  else if locals < vm.here then
    none
  else
    pure vm

/-- The VM state right after `setup()`/`resetBoard()`: zeroed dictionary and
    cursors, both stacks empty, `eventBuffer` at its initialiser `MEM_SIZE`. -/
def vm0 : VM where
  memory := fun _ => 0
  dstack := fun _ => 0
  sIdx := -1
  rstack := fun _ => 0
  rIdx := -1
  p := 0
  here := 0
  last := 0
  eventBuffer := MEM_SIZE
  loopword := -1
  loopIterations := 0
  serialOut := []

/-- Scalar-event wire encoding exactly as the spec's words describe it (§6):
    one length byte counting only the body, the id byte, then a 0/1/2-byte body
    depending on `val`.  This is the spec-side definition for the refinement
    claim C7, to be compared against the source-side `event`. -/
def specScalarEventBytes (id : Nat) (val : Int) : List Nat :=
  if val = 0 then [0, id]
  else if -128 ≤ val ∧ val ≤ 127 then [1, id, toByte val]
  else [2, id, hiByte val, toByte val]

/-- The dictionary-cursor invariant claimed in the spec's data model:
    `0 ≤ last ≤ here ≤ MEM_SIZE`. -/
def dictInvariant (vm : VM) : Prop :=
  0 ≤ vm.last ∧ vm.last ≤ vm.here ∧ vm.here ≤ MEM_SIZE

/-- Memory image after the intake loop stores a list of payload bytes at
    ascending addresses (mirrors `intakeWrite`'s stores). -/
def writeBytes (m : Int → Nat) (a : Int) : List Nat → Int → Nat
  | [] => m
  | b :: rest => writeBytes (memUpd m a (b % 256)) (a + 1) rest

/-  Concrete states used by the boundary-case theorems below. -/

/-- A data stack holding exactly `DATA_STACK_SIZE` (= 4) elements: the
    top-of-stack offset is 3, i.e. cells 0..3 are occupied. -/
def vmFull : VM := { vm0 with sIdx := 3, dstack := fun i => if 0 ≤ i ∧ i ≤ 3 then 11 else 0 }

/-- The state `push` leaves behind after being applied to the full stack: five
    elements, the fifth in the out-of-bounds slot `dstack[4]`.  Only now does
    the overflow guard fire. -/
def vmOver : VM := { vm0 with sIdx := 4 }

/-- Dictionary holding the two bytes `{1, 0xFF}` — a `lit8` instruction with
    operand `0xFF` — with the program counter at the operand. -/
def vmLit : VM := { vm0 with memory := memUpd vm0.memory 0 0xFF }

/-- Dictionary holding the call sequence `{0x80, 0x05, 0x00}`: a two-byte call
    to address 5 immediately followed by a `ret` byte (the tail-call case). -/
def vmTco : VM :=
  { vm0 with memory := fun a => if a = 0 then 0x80 else if a = 1 then 5 else 0 }

/-- A fresh board with one value (7) on the data stack. -/
def vmOne : VM := { vm0 with sIdx := 0, dstack := cellUpd vm0.dstack 0 7 }

/-- A board with two definitions committed (`here = 5`, `last = 2`) and the
    address 3 on the data stack. -/
def vmForget : VM :=
  { vm0 with here := 5, last := 2, sIdx := 0, dstack := cellUpd vm0.dstack 0 3 }

/-- A board whose dictionary has a nonzero byte at address 1 (used as the
    definition flag of a Firmware-variant frame of payload length 1). -/
def vmFlag : VM := { vm0 with memory := memUpd vm0.memory 1 1 }

/-  Characterisations of the basic operations on states where their guards do
    not fire.  These drive the symbolic proofs below. -/

theorem pushWith_ok (err : Err) (vm : VM) (x : Int) (h : vm.sIdx < DATA_STACK_SIZE) :
    pushWith err vm x
      = some { vm with sIdx := vm.sIdx + 1, dstack := cellUpd vm.dstack (vm.sIdx + 1) x } := by
  unfold pushWith
  rw [if_neg (not_le.mpr h)]
  rfl

theorem popWith_ok (err : Err) (vm : VM) (h : 0 ≤ vm.sIdx) :
    popWith err vm = some ({ vm with sIdx := vm.sIdx - 1 }, vm.dstack vm.sIdx) := by
  unfold popWith
  rw [if_neg (not_lt.mpr h)]
  rfl

theorem rpushWith_ok (err : Err) (vm : VM) (x : Int) (h : vm.rIdx < RETURN_STACK_SIZE) :
    rpushWith err vm x
      = some { vm with rIdx := vm.rIdx + 1, rstack := cellUpd vm.rstack (vm.rIdx + 1) x } := by
  unfold rpushWith
  rw [if_neg (not_le.mpr h)]
  rfl

theorem memsetWith_ok (err : Err) (vm : VM) (a : Int) (v : Nat) (h : a < MEM_SIZE) :
    memsetWith err vm a v = some { vm with memory := memUpd vm.memory a v } := by
  unfold memsetWith
  rw [if_neg (not_le.mpr h)]
  rfl

theorem memgetWith_ok (err : Err) (vm : VM) (a : Int) (h0 : 0 ≤ a) (h1 : a < MEM_SIZE) :
    memgetWith err vm a = some (vm, vm.memory a) := by
  unfold memgetWith
  rw [if_neg (by push_neg; exact ⟨h0, h1⟩)]
  rfl

/-- When the overflow guard is already live, `pushWith` only invokes the error
    continuation with `DATA_STACK_OVERFLOW`. -/
theorem pushWith_overfull (err : Err) (x : Int) :
    pushWith err vmOver x = err vmOver VM_ERROR_DATA_STACK_OVERFLOW := by
  unfold pushWith
  rw [if_pos (by decide)]

/-- Once the data stack has overflowed past the guard, `error` never completes:
    `error → event → push(code) → error → …` recurses until the (in C,
    unbounded) fuel runs out, for every fuel. -/
theorem error_overfull_none (n : Nat) :
    error n vmOver VM_ERROR_DATA_STACK_OVERFLOW = none := by
  induction n with
  | zero => rfl
  | succ n ih =>
      simp only [error, eventWith, pushWith_overfull, ih]
      rfl

theorem toByte_coe (n : Nat) (h : n < 256) : toByte (n : Int) = n := by
  simp only [toByte]
  omega

theorem error_succ (n : Nat) (vm : VM) (code : Nat) :
    error (n + 1) vm code = eventWith (error n) vm code ((VM_EVENT_ID : Nat) : Int) := rfl

/-- On a state with room on the data stack and at least three in-bounds bytes of
    dictionary above `here`, `event(code, VM_EVENT_ID)` — the call `error(code)`
    makes — completes and appends the frame `[2, code, 0x00, 0xFE]` to the
    serial output, writing the same three bytes at `here..here+2` and leaving
    the event cursor at `here + 3`. -/
theorem eventWith_error_ok (err : Err) (vm : VM) (code : Nat) (hcode : code < 256)
    (hs1 : -1 ≤ vm.sIdx) (hs2 : vm.sIdx < DATA_STACK_SIZE)
    (h2 : 0 ≤ vm.here) (h3 : vm.here + 3 ≤ MEM_SIZE) :
    ∃ vm', eventWith err vm code ((VM_EVENT_ID : Nat) : Int) = some vm'
      ∧ vm'.sIdx = vm.sIdx ∧ vm'.here = vm.here ∧ vm'.last = vm.last ∧ vm'.p = vm.p
      ∧ vm'.rIdx = vm.rIdx ∧ vm'.eventBuffer = vm.here + 3
      ∧ vm'.serialOut = vm.serialOut ++ [2, code, 0x00, VM_EVENT_ID]
      ∧ (∀ a : Int, vm'.memory a =
          if a = vm.here + 2 then VM_EVENT_ID
          else if a = vm.here + 1 then 0x00
          else if a = vm.here then code
          else vm.memory a) := by
  have e22 : vm.here + 1 + 1 = vm.here + 2 := by ring
  have e33 : vm.here + 2 + 1 = vm.here + 3 := by ring
  have m0 : vm.here < MEM_SIZE := by simp only [MEM_SIZE] at h3 ⊢; omega
  have m1 : vm.here + 1 < MEM_SIZE := by simp only [MEM_SIZE] at h3 ⊢; omega
  have m2 : vm.here + 2 < MEM_SIZE := by simp only [MEM_SIZE] at h3 ⊢; omega
  have g1 : (0:Int) ≤ vm.here + 1 := by omega
  have g2 : (0:Int) ≤ vm.here + 2 := by omega
  have d2 : (0:Int) ≤ vm.sIdx + 1 := by omega
  have hr3 : List.range 3 = [0, 1, 2] := rfl
  have hmod : code % 256 = code := Nat.mod_eq_of_lt hcode
  have hv1 : ((VM_EVENT_ID : Nat) : Int) ≠ 0 := by decide
  have hv2 : ¬(-128 ≤ ((VM_EVENT_ID : Nat) : Int) ∧ ((VM_EVENT_ID : Nat) : Int) ≤ 127) := by decide
  have hb1 : toByte ((VM_EVENT_ID : Nat) : Int) = VM_EVENT_ID := by decide
  have hb2 : hiByte ((VM_EVENT_ID : Nat) : Int) = 0 := by decide
  have hlen : vm.here + 3 - vm.here = (3:Int) := by ring
  have htb3 : toByte 3 = 3 := by decide
  have htb31 : toByte ((3:Int) - 1) = 2 := by decide
  have r0 : memUpd (memUpd (memUpd vm.memory vm.here code) (vm.here + 1) 0)
      (vm.here + 2) VM_EVENT_ID vm.here = code := by
    unfold memUpd
    rw [if_neg (by omega), if_neg (by omega), if_pos rfl]
  have r1 : memUpd (memUpd (memUpd vm.memory vm.here code) (vm.here + 1) 0)
      (vm.here + 2) VM_EVENT_ID (vm.here + 1) = 0 := by
    unfold memUpd
    rw [if_neg (by omega), if_pos rfl]
  have r2 : memUpd (memUpd (memUpd vm.memory vm.here code) (vm.here + 1) 0)
      (vm.here + 2) VM_EVENT_ID (vm.here + 2) = VM_EVENT_ID := by
    unfold memUpd
    rw [if_pos rfl]
  simp only [eventWith, eventHeaderWith, eventBody16With, eventFooterWith,
    pushWith_ok, popWith_ok, memsetWith_ok, memgetWith_ok,
    hs2, d2, h2, g1, g2, m0, m1, m2, hmod, hv1, hv2, hb1, hb2, hr3, htb3, htb31, hcode,
    e22, e33, hlen, r0, r1, r2,
    add_sub_cancel_right, Nat.cast_zero, Nat.cast_one, Nat.cast_ofNat, add_zero,
    Option.bind_eq_bind, Option.some_bind, Option.pure_def,
    cellUpd, toByte_coe,
    List.foldlM, List.append_assoc, List.cons_append, List.nil_append, List.singleton_append,
    if_true, if_false, ite_true, ite_false, ne_eq, not_false_iff, not_true]
  refine ⟨_, rfl, rfl, rfl, rfl, rfl, rfl, rfl, rfl, ?_⟩
  intro a
  simp only [memUpd]

/-- C1: On a data-stack underflow the VM's `error(2)` runs `event(code, VM_EVENT_ID)`
    with the arguments in source order, and the resulting outbound frame is
    `[2, 2, 0x00, 0xFE]` — length byte 2, id byte 2 (the error code) and a
    two-byte body encoding 254 (`VM_EVENT_ID`).  The claimed frame — id byte
    `VM_EVENT_ID = 0xFE` with single body byte 2 — would be `[1, 0xFE, 2]`; the
    code emits something different because `error` passes the code as the event
    id and `VM_EVENT_ID` as the value, contradicting the table in the comment
    directly above it in src/src/Brief.cpp. -/
theorem c1_error_event_id_swapped :
    (error 9 vm0 VM_ERROR_DATA_STACK_UNDERFLOW).map (fun vm => vm.serialOut)
        = some [2, VM_ERROR_DATA_STACK_UNDERFLOW, 0x00, VM_EVENT_ID]
      ∧ [2, VM_ERROR_DATA_STACK_UNDERFLOW, 0x00, VM_EVENT_ID]
          ≠ [1, VM_EVENT_ID, VM_ERROR_DATA_STACK_UNDERFLOW] :=
  ⟨by rfl, by decide⟩

/-- C3: `memset(-1, 7)` on a fresh board takes the store branch — the source
    checks only `address >= MEM_SIZE`, not negativity — so it writes through the
    negative index (visible in the byte map at -1) and raises no error at all,
    while `memget(-1)` does raise `OUT_OF_MEMORY` (the emitted frame is the
    swapped-argument encoding of error code 4, see C1) and returns 0. -/
theorem c3_store_misses_negative_check :
    (memset 9 vm0 (-1) 7).map (fun vm => (vm.memory (-1), vm.serialOut))
        = some (7, [])
      ∧ (memget 9 vm0 (-1)).map (fun vx => (vx.2, vx.1.serialOut))
          = some (0, [2, VM_ERROR_OUT_OF_MEMORY, 0x00, VM_EVENT_ID]) :=
  ⟨by rfl, by rfl⟩

/-- C4: `push` applied to a data stack already holding `DATA_STACK_SIZE` = 4
    elements does not fire the overflow guard (`s >= dstack + DATA_STACK_SIZE`
    only holds from the fifth element on): it silently stores the value at
    offset 4 — one past the end of the C array `dstack[4]` — leaving depth 5 and
    emitting nothing.  Only a further push meets the guard, and in this source
    that error call recurses `push → error → event → push` forever (second
    conjunct: it completes for no fuel). -/
theorem c4_push_overflow_off_by_one :
    (push 9 vmFull 7).map (fun vm => (vm.sIdx, vm.dstack DATA_STACK_SIZE, vm.serialOut))
        = some (DATA_STACK_SIZE, 7, [])
      ∧ ∀ (fuel : Nat) (x : Int), push fuel vmOver x = none := by
  refine ⟨by rfl, ?_⟩
  intro fuel x
  show pushWith (error fuel) vmOver x = none
  rw [pushWith_overfull, error_overfull_none]

/-- C5: the later source's `lit8` is `push(memget(p++))`; `memget` returns
    `uint8_t`, so the operand `0xFF` is zero-extended and 255 is pushed, not -1.
    The Firmware variant's `lit8` (`push((int8_t)mem(p++))`) does sign-extend
    and pushes -1 on the same bytecode. -/
theorem c5_lit8_zero_extends :
    (lit8 9 vmLit).map (fun vm => (vm.dstack 0, vm.sIdx, vm.p)) = some (255, 0, 1)
      ∧ (fwLit8 9 vmLit).map (fun vm => vm.dstack 0) = some (-1)
      ∧ (255 : Int) ≠ -1 :=
  ⟨by rfl, by rfl, by decide⟩

/-- C10: `drop` is `s--;` — it performs no check, raises nothing, touches
    nothing but the stack pointer, and decrements it even on an empty stack
    (first conjunct, for every state).  A data-stack underflow is reported only
    by a subsequent checked `pop`: popping the empty stack emits the
    `DATA_STACK_UNDERFLOW` error event (second conjunct; its wire bytes are the
    swapped-argument encoding this source produces, see C1). -/
theorem c10_drop_never_errors :
    (∀ (fuel : Nat) (vm : VM), execInstr fuel vm 32 = some { vm with sIdx := vm.sIdx - 1 })
      ∧ ∀ vm : VM, vm.sIdx = -1 → 0 ≤ vm.here → vm.here + 3 ≤ MEM_SIZE →
          (pop 9 vm).map (fun vx => (vx.1.serialOut, vx.1.sIdx))
            = some (vm.serialOut ++ [2, VM_ERROR_DATA_STACK_UNDERFLOW, 0x00, VM_EVENT_ID], -1) := by
  constructor
  · intro fuel vm
    rfl
  · intro vm h1 h2 h3
    unfold pop popWith
    rw [if_pos (show vm.sIdx < 0 by omega)]
    rw [show (9:Nat) = 8 + 1 from rfl, error_succ]
    obtain ⟨vm', hev, hs, hh, hl, hp, hr, he, hso, hm⟩ :=
      eventWith_error_ok (error 8) vm VM_ERROR_DATA_STACK_UNDERFLOW (by decide)
        (by omega) (by simp only [DATA_STACK_SIZE]; omega) h2 h3
    rw [hev]
    simp only [Option.bind_eq_bind, Option.some_bind, Option.pure_def, Option.map_some']
    simp only [hso, hs, h1]

/-- C10 witness: the theorem at the fresh board — `drop` on the empty stack just
    moves the pointer to -2, and `pop` on the empty stack emits the underflow
    event. -/
theorem c10_witness :
    execInstr 1 vm0 32 = some { vm0 with sIdx := vm0.sIdx - 1 }
      ∧ (pop 9 vm0).map (fun vx => (vx.1.serialOut, vx.1.sIdx))
          = some (vm0.serialOut ++ [2, VM_ERROR_DATA_STACK_UNDERFLOW, 0x00, VM_EVENT_ID], -1) :=
  ⟨c10_drop_never_errors.1 1 vm0,
   c10_drop_never_errors.2 vm0 rfl (by decide) (by decide)⟩

/-- C9 (amended): running `eventBody8` or `eventBody16` before any
    `eventHeader` finds the event cursor still at its initialiser `MEM_SIZE`,
    so the first body write is rejected (`OUT_OF_MEMORY`; the byte at address
    `MEM_SIZE` is untouched) — but the error event emitted in response itself
    writes three bytes into the dictionary at `here..here+2` through
    `eventHeader` and re-seats the event cursor at `here + 3`, clobbering its
    pre-call value.  For `eventBody8` that is the final state (cursor at
    `here + 3`, first conjunct).  For `eventBody16` (second conjunct) the
    second `memset(eventBuffer++, val)` then lands inside the dictionary: it
    writes the value's low byte at `here + 3` without raising any further
    error, and the cursor ends at `here + 4`.  `eventFooter` before any header
    (third conjunct, on the fresh board) raises no error at all: the cursor
    difference 512 truncates to the byte 0, so it emits the single length
    byte 255 and leaves memory and the cursor untouched. -/
theorem c9_body_before_header :
    (∀ vm : VM, vm.eventBuffer = MEM_SIZE → vm.sIdx = 0 → 0 ≤ vm.here →
        vm.here + 3 ≤ MEM_SIZE →
        (eventBody8 9 vm).map
            (fun v => (v.memory MEM_SIZE, v.memory vm.here, v.eventBuffer, v.serialOut))
          = some (vm.memory MEM_SIZE, VM_ERROR_OUT_OF_MEMORY, vm.here + 3,
              vm.serialOut ++ [2, VM_ERROR_OUT_OF_MEMORY, 0x00, VM_EVENT_ID]))
      ∧ (∀ vm : VM, vm.eventBuffer = MEM_SIZE → vm.sIdx = 0 → 0 ≤ vm.here →
          vm.here + 4 ≤ MEM_SIZE →
          (eventBody16 9 vm).map
              (fun v => (v.memory MEM_SIZE, v.memory vm.here, v.memory (vm.here + 3),
                v.eventBuffer, v.serialOut))
            = some (vm.memory MEM_SIZE, VM_ERROR_OUT_OF_MEMORY, toByte (vm.dstack vm.sIdx),
                vm.here + 4, vm.serialOut ++ [2, VM_ERROR_OUT_OF_MEMORY, 0x00, VM_EVENT_ID]))
      ∧ (eventFooter 9 vm0).map (fun v => (v.serialOut, v.memory 0, v.eventBuffer))
          = some ([255], 0, MEM_SIZE) := by
  refine ⟨?_, ?_, ?_⟩
  · intro vm hEb hs h2 h3
    unfold eventBody8 eventBody8With
    rw [popWith_ok _ _ (show (0:Int) ≤ vm.sIdx by omega)]
    simp only [Option.bind_eq_bind, Option.some_bind]
    unfold memsetWith
    rw [if_pos (show MEM_SIZE ≤ vm.eventBuffer from by rw [hEb])]
    rw [show (9:Nat) = 8 + 1 from rfl, error_succ]
    obtain ⟨vm', hev, hs', hh, hl, hp, hr, he, hso, hm⟩ :=
      eventWith_error_ok (error 8)
        { vm with sIdx := vm.sIdx - 1, eventBuffer := vm.eventBuffer + 1 }
        VM_ERROR_OUT_OF_MEMORY (by decide)
        (by show (-1:Int) ≤ vm.sIdx - 1; omega)
        (by show vm.sIdx - 1 < DATA_STACK_SIZE; simp only [DATA_STACK_SIZE]; omega)
        (by show (0:Int) ≤ vm.here; exact h2)
        (by show vm.here + 3 ≤ MEM_SIZE; exact h3)
    rw [hev]
    simp only [Option.map_some']
    dsimp only at hs' he hso hm
    have hm1 := hm MEM_SIZE
    have hm2 := hm vm.here
    simp only [MEM_SIZE] at h3 hm1 hm2 ⊢
    rw [if_neg (by omega), if_neg (by omega), if_neg (by omega)] at hm1
    rw [if_neg (by omega), if_neg (by omega), if_true] at hm2
    rw [hm1, hm2, he, hso]
  · intro vm hEb hs h2 h4
    unfold eventBody16 eventBody16With
    rw [popWith_ok _ _ (show (0:Int) ≤ vm.sIdx by omega)]
    simp only [Option.bind_eq_bind, Option.some_bind]
    unfold memsetWith
    rw [if_pos (show MEM_SIZE ≤ vm.eventBuffer from by rw [hEb])]
    rw [show (9:Nat) = 8 + 1 from rfl, error_succ]
    obtain ⟨vm', hev, hs', hh, hl, hp, hr, he, hso, hm⟩ :=
      eventWith_error_ok (error 8)
        { vm with sIdx := vm.sIdx - 1, eventBuffer := vm.eventBuffer + 1 }
        VM_ERROR_OUT_OF_MEMORY (by decide)
        (by show (-1:Int) ≤ vm.sIdx - 1; omega)
        (by show vm.sIdx - 1 < DATA_STACK_SIZE; simp only [DATA_STACK_SIZE]; omega)
        (by show (0:Int) ≤ vm.here; exact h2)
        (by show vm.here + 3 ≤ MEM_SIZE; simp only [MEM_SIZE] at h4 ⊢; omega)
    rw [hev]
    simp only [Option.bind_eq_bind, Option.some_bind]
    dsimp only at hs' he hso hm
    rw [he]
    rw [if_neg (show ¬ MEM_SIZE ≤ vm.here + 3 from by simp only [MEM_SIZE] at h4 ⊢; omega)]
    have hm1 := hm MEM_SIZE
    have hm2 := hm vm.here
    simp only [MEM_SIZE] at h4 hm1 hm2 ⊢
    rw [if_neg (by omega), if_neg (by omega), if_neg (by omega)] at hm1
    rw [if_neg (by omega), if_neg (by omega), if_true] at hm2
    have q1 : memUpd vm'.memory (vm.here + 3) (toByte (vm.dstack vm.sIdx)) 512
        = vm'.memory 512 := by
      unfold memUpd; rw [if_neg (by omega)]
    have q2 : memUpd vm'.memory (vm.here + 3) (toByte (vm.dstack vm.sIdx)) vm.here
        = vm'.memory vm.here := by
      unfold memUpd; rw [if_neg (by omega)]
    have q3 : memUpd vm'.memory (vm.here + 3) (toByte (vm.dstack vm.sIdx)) (vm.here + 3)
        = toByte (vm.dstack vm.sIdx) := by
      unfold memUpd; rw [if_pos rfl]
    have e34 : vm.here + 3 + 1 = vm.here + 4 := by ring
    simp only [Option.pure_def, Option.map_some', q1, q2, q3, hm1, hm2, hso, e34]
  · rfl

/-- C9 counterexample: on a fresh board holding one stack value, `eventBody8`
    before any header changes dictionary byte 0 from 0 to 4 (the error event's
    id byte), refuting "no byte of the dictionary array is modified". -/
theorem c9_counterexample :
    (eventBody8 9 vmOne).map (fun v => v.memory 0) = some VM_ERROR_OUT_OF_MEMORY
      ∧ vmOne.memory 0 = 0 ∧ VM_ERROR_OUT_OF_MEMORY ≠ 0 :=
  ⟨by rfl, rfl, by decide⟩

/-- C9 witness: both body conjuncts of the amended statement evaluated on the
    fresh one-value board. -/
theorem c9_witness :
    (eventBody8 9 vmOne).map
        (fun v => (v.memory MEM_SIZE, v.memory vmOne.here, v.eventBuffer, v.serialOut))
        = some (vmOne.memory MEM_SIZE, VM_ERROR_OUT_OF_MEMORY, vmOne.here + 3,
            vmOne.serialOut ++ [2, VM_ERROR_OUT_OF_MEMORY, 0x00, VM_EVENT_ID])
      ∧ (eventBody16 9 vmOne).map
          (fun v => (v.memory MEM_SIZE, v.memory vmOne.here, v.memory (vmOne.here + 3),
            v.eventBuffer, v.serialOut))
          = some (vmOne.memory MEM_SIZE, VM_ERROR_OUT_OF_MEMORY,
              toByte (vmOne.dstack vmOne.sIdx), vmOne.here + 4,
              vmOne.serialOut ++ [2, VM_ERROR_OUT_OF_MEMORY, 0x00, VM_EVENT_ID]) :=
  ⟨c9_body_before_header.1 vmOne rfl rfl (by decide) (by decide),
   c9_body_before_header.2.1 vmOne rfl rfl (by decide) (by decide)⟩

/-- C7: the scalar-event helper `event(id, val)` emits exactly the wire frame
    the spec describes: a length byte counting only the body, the id byte, then
    an empty body for `val = 0`, the single signed byte for `-128 ≤ val ≤ 127`,
    and high-then-low bytes otherwise (`specScalarEventBytes`, written from the
    spec's words); `here` and `last` are unchanged.  Holds for any state with
    three in-bounds scratch bytes above `here` and at least one free stack cell,
    and any fuel (no error path is taken). -/
theorem c7_scalar_event_encoding (fuel : Nat) (vm : VM) (id : Nat) (val : Int)
    (hid : id < 256) (hv1 : -32768 ≤ val) (hv2 : val ≤ 32767)
    (h2 : 0 ≤ vm.here) (h3 : vm.here + 3 ≤ MEM_SIZE)
    (hs1 : -1 ≤ vm.sIdx) (hs2 : vm.sIdx ≤ DATA_STACK_SIZE - 2) :
    (event fuel vm id val).map (fun v => (v.serialOut, v.here, v.last))
      = some (vm.serialOut ++ specScalarEventBytes id val, vm.here, vm.last) := by
  have hpush : vm.sIdx < DATA_STACK_SIZE := by
    simp only [DATA_STACK_SIZE] at hs2 ⊢; omega
  have d2 : (0:Int) ≤ vm.sIdx + 1 := by omega
  have m0 : vm.here < MEM_SIZE := by simp only [MEM_SIZE] at h3 ⊢; omega
  have m1 : vm.here + 1 < MEM_SIZE := by simp only [MEM_SIZE] at h3 ⊢; omega
  have m2 : vm.here + 2 < MEM_SIZE := by simp only [MEM_SIZE] at h3 ⊢; omega
  have g1 : (0:Int) ≤ vm.here + 1 := by omega
  have g2 : (0:Int) ≤ vm.here + 2 := by omega
  have e22 : vm.here + 1 + 1 = vm.here + 2 := by ring
  have e33 : vm.here + 2 + 1 = vm.here + 3 := by ring
  have hmod : id % 256 = id := Nat.mod_eq_of_lt hid
  by_cases hz : val = 0
  · subst hz
    have hlen1 : vm.here + 1 - vm.here = (1:Int) := by ring
    have hr1 : List.range 1 = [0] := rfl
    have ht1 : toByte 1 = 1 := by decide
    have ht0 : toByte ((1:Int) - 1) = 0 := by decide
    have r0 : memUpd vm.memory vm.here id vm.here = id := by
      unfold memUpd; rw [if_pos rfl]
    simp only [event, eventWith, eventHeaderWith, eventFooterWith, specScalarEventBytes,
      pushWith_ok, popWith_ok, memsetWith_ok, memgetWith_ok,
      hpush, d2, h2, m0, hmod, toByte_coe, hid, hlen1, hr1, ht1, ht0, r0,
      add_sub_cancel_right, Nat.cast_zero, Nat.cast_one, Nat.cast_ofNat, add_zero,
      Option.bind_eq_bind, Option.some_bind, Option.pure_def, Option.map_some',
      cellUpd, List.foldlM, List.append_assoc, List.cons_append, List.nil_append,
      if_true, if_false, ite_true, ite_false, ne_eq, not_false_iff, not_true, not_false_eq_true, and_self]
  · by_cases hr : -128 ≤ val ∧ val ≤ 127
    · have hlen2 : vm.here + 2 - vm.here = (2:Int) := by ring
      have hr2 : List.range 2 = [0, 1] := rfl
      have ht2 : toByte 2 = 2 := by decide
      have ht1 : toByte ((2:Int) - 1) = 1 := by decide
      have r0 : memUpd (memUpd vm.memory vm.here id) (vm.here + 1) (toByte val) vm.here = id := by
        unfold memUpd; rw [if_neg (by omega), if_pos rfl]
      have r1 : memUpd (memUpd vm.memory vm.here id) (vm.here + 1) (toByte val) (vm.here + 1)
          = toByte val := by
        unfold memUpd; rw [if_pos rfl]
      simp only [event, eventWith, eventHeaderWith, eventBody8With, eventFooterWith,
        specScalarEventBytes,
        pushWith_ok, popWith_ok, memsetWith_ok, memgetWith_ok,
        hpush, d2, h2, m0, m1, g1, hmod, toByte_coe, hid, hz, hr, e22, hlen2, hr2, ht2, ht1, r0, r1,
        add_sub_cancel_right, Nat.cast_zero, Nat.cast_one, Nat.cast_ofNat, add_zero,
        Option.bind_eq_bind, Option.some_bind, Option.pure_def, Option.map_some',
        cellUpd, List.foldlM, List.append_assoc, List.cons_append, List.nil_append,
        if_true, if_false, ite_true, ite_false, ne_eq, not_false_iff, not_true, not_false_eq_true, and_self]
    · have hlen3 : vm.here + 3 - vm.here = (3:Int) := by ring
      have hr3 : List.range 3 = [0, 1, 2] := rfl
      have ht3 : toByte 3 = 3 := by decide
      have ht2 : toByte ((3:Int) - 1) = 2 := by decide
      have r0 : memUpd (memUpd (memUpd vm.memory vm.here id) (vm.here + 1) (hiByte val))
          (vm.here + 2) (toByte val) vm.here = id := by
        unfold memUpd; rw [if_neg (by omega), if_neg (by omega), if_pos rfl]
      have r1 : memUpd (memUpd (memUpd vm.memory vm.here id) (vm.here + 1) (hiByte val))
          (vm.here + 2) (toByte val) (vm.here + 1) = hiByte val := by
        unfold memUpd; rw [if_neg (by omega), if_pos rfl]
      have r2 : memUpd (memUpd (memUpd vm.memory vm.here id) (vm.here + 1) (hiByte val))
          (vm.here + 2) (toByte val) (vm.here + 2) = toByte val := by
        unfold memUpd; rw [if_pos rfl]
      simp only [event, eventWith, eventHeaderWith, eventBody16With, eventFooterWith,
        specScalarEventBytes,
        pushWith_ok, popWith_ok, memsetWith_ok, memgetWith_ok,
        hpush, d2, h2, m0, m1, m2, g1, g2, hmod, toByte_coe, hid, hz, hr, e22, e33,
        hlen3, hr3, ht3, ht2, r0, r1, r2,
        add_sub_cancel_right, Nat.cast_zero, Nat.cast_one, Nat.cast_ofNat, add_zero,
        Option.bind_eq_bind, Option.some_bind, Option.pure_def, Option.map_some',
        cellUpd, List.foldlM, List.append_assoc, List.cons_append, List.nil_append,
        if_true, if_false, ite_true, ite_false, ne_eq, not_false_iff, not_true, not_false_eq_true, and_self]

/-- C7 witness: `event(7, 300)` on the fresh board emits the bytes
    `2, 7, 0x01, 0x2C`. -/
theorem c7_witness :
    (event 1 vm0 7 300).map (fun v => (v.serialOut, v.here, v.last))
        = some (vm0.serialOut ++ specScalarEventBytes 7 300, vm0.here, vm0.last)
      ∧ specScalarEventBytes 7 300 = [2, 7, 0x01, 0x2C] :=
  ⟨c7_scalar_event_encoding 1 vm0 7 300 (by decide) (by decide) (by decide) (by decide)
      (by decide) (by decide) (by decide), by decide⟩

set_option maxRecDepth 4096 in
theorem byte_top_bit_set (b : Nat) (h1 : b < 256) (h2 : 128 ≤ b) : ¬(b &&& 0x80 = 0) := by
  revert b
  decide

set_option maxRecDepth 4096 in
theorem call_target_shift (b : Nat) (h : b < 256) :
    (b <<< 8) &&& 0x7F00 = (b &&& 0x7F) <<< 8 := by
  revert b
  decide

/-- C2: when the interpreter fetches a byte `b0` with the top bit set, it
    executes a two-byte call: the next byte `b1` is the low half and the new
    program counter is `((b0 & 0x7F) << 8) | b1` (the source computes
    `((i << 8) & 0x7F00) | lo`, equal on bytes); the return address — two past
    the call's first byte, i.e. one past its low byte — is pushed onto the
    return stack exactly when the byte after the low byte (`nxt`) is nonzero,
    so a call immediately followed by the `ret` byte 0 leaves the return-stack
    depth unchanged (tail-call elimination). -/
theorem c2_call_encoding_tco (fuel : Nat) (vm : VM) (b0 b1 nxt : Nat)
    (hb0 : vm.memory vm.p = b0) (hb1 : vm.memory (vm.p + 1) = b1)
    (hnxt : vm.memory (vm.p + 2) = nxt)
    (hb0hi : 128 ≤ b0) (hb0lt : b0 < 256)
    (hp0 : 0 ≤ vm.p) (hp : vm.p + 2 < MEM_SIZE)
    (hr : vm.rIdx < RETURN_STACK_SIZE) :
    (runStep fuel vm).map (fun v => (v.p, v.rIdx, v.rstack (vm.rIdx + 1)))
      = some (((((b0 &&& 0x7F) <<< 8) ||| b1 : Nat) : Int),
          if nxt = 0 then vm.rIdx else vm.rIdx + 1,
          if nxt = 0 then vm.rstack (vm.rIdx + 1) else vm.p + 2) := by
  have m0 : vm.p < MEM_SIZE := by simp only [MEM_SIZE] at hp ⊢; omega
  have m1 : vm.p + 1 < MEM_SIZE := by simp only [MEM_SIZE] at hp ⊢; omega
  have g1 : (0:Int) ≤ vm.p + 1 := by omega
  have g2 : (0:Int) ≤ vm.p + 2 := by omega
  have e22 : vm.p + 1 + 1 = vm.p + 2 := by ring
  have hand : ¬(b0 &&& 0x80 = 0) := byte_top_bit_set b0 hb0lt hb0hi
  have hsb : (b0 <<< 8) &&& 0x7F00 = (b0 &&& 0x7F) <<< 8 := call_target_shift b0 hb0lt
  by_cases hn : nxt = 0
  · simp only [runStep, memget, rpush, memgetWith_ok, rpushWith_ok,
      hb0, hb1, hnxt, hand, e22, hp0, g1, g2, m0, m1, hp, hr, hn, hsb,
      Option.bind_eq_bind, Option.some_bind, Option.pure_def, Option.map_some', cellUpd,
      if_true, if_false, ite_true, ite_false, ne_eq, not_false_iff, not_true,
      not_false_eq_true, and_self]
  · simp only [runStep, memget, rpush, memgetWith_ok, rpushWith_ok,
      hb0, hb1, hnxt, hand, e22, hp0, g1, g2, m0, m1, hp, hr, hn, hsb,
      Option.bind_eq_bind, Option.some_bind, Option.pure_def, Option.map_some', cellUpd,
      if_true, if_false, ite_true, ite_false, ne_eq, not_false_iff, not_true,
      not_false_eq_true, and_self]

/-- C2 witness: the call `{0x80, 0x05}` immediately followed by a `ret` byte
    jumps to address 5 without touching the return stack. -/
theorem c2_witness :
    (runStep 1 vmTco).map (fun v => (v.p, v.rIdx, v.rstack (vmTco.rIdx + 1)))
      = some (((((128 &&& 0x7F) <<< 8) ||| 5 : Nat) : Int),
          if (0:Nat) = 0 then vmTco.rIdx else vmTco.rIdx + 1,
          if (0:Nat) = 0 then vmTco.rstack (vmTco.rIdx + 1) else vmTco.p + 2) :=
  c2_call_encoding_tco 1 vmTco 128 5 0 rfl rfl rfl (by decide) (by decide) (by decide)
    (by decide) (by decide)

set_option maxRecDepth 2048 in
theorem low7_id (L : Nat) (h : L < 128) : L &&& 0x7F = L := by
  revert L
  decide

set_option maxRecDepth 2048 in
theorem low_top_bit_clear (L : Nat) (h : L < 128) : ¬(L &&& 0x80 = 0x80) := by
  revert L
  decide

theorem intakeWrite_spec (fuel : Nat) (payload : List Nat) : ∀ (vm : VM),
    0 ≤ vm.here → vm.here + payload.length ≤ MEM_SIZE →
    intakeWrite fuel vm payload payload.length
      = some ({ vm with here := vm.here + payload.length,
                        memory := writeBytes vm.memory vm.here payload }, []) := by
  induction payload with
  | nil =>
      intro vm h1 h2
      simp [intakeWrite, writeBytes]
  | cons b rest ih =>
      intro vm h1 h2
      simp only [List.length_cons] at h2 ⊢
      have hm : vm.here < MEM_SIZE := by
        simp only [MEM_SIZE] at h2 ⊢
        push_cast at h2
        omega
      have h1' : (0:Int) ≤ vm.here + 1 := by omega
      have h2' : (vm.here + 1) + (rest.length : Int) ≤ MEM_SIZE := by
        simp only [MEM_SIZE] at h2 ⊢
        push_cast at h2 ⊢
        omega
      have step : intakeWrite fuel vm (b :: rest) (rest.length + 1)
          = intakeWrite fuel
              { vm with
                  here := vm.here + 1
                  memory := memUpd vm.memory vm.here (b % 256) }
              rest rest.length := by
        simp only [intakeWrite, memset]
        rw [memsetWith_ok _ _ _ _ hm]
        simp only [Option.bind_eq_bind, Option.some_bind]
      rw [step, ih _ h1' h2']
      simp only [Option.some.injEq, Prod.mk.injEq]
      refine ⟨?_, trivial⟩
      ext : 1
      · rfl
      · rfl
      · rfl
      · rfl
      · rfl
      · rfl
      · dsimp only
        push_cast
        ring
      · rfl
      · rfl
      · rfl
      · rfl
      · rfl

/-- C6 (amended): after the canonical later source (src/src/Brief.cpp `loop()`)
    takes in a definition frame of payload length `L`, `here` advances to
    `old here + L` as claimed, but `last` is set to the SAME value — one past
    the definition's final byte, that source's own convention ("`last` points to
    the byte following the previously commited definition") — so `last = here`,
    never `last < here`.  The claimed layout (`last` = first byte of the new
    definition = old `here`) is what the Firmware variant's `frameReceived`
    produces (second conjunct): there `last = old here` and
    `here = old here + frameLength - 1`. -/
theorem c6_definition_frame_cursors (fuel : Nat) (vm : VM) (payload : List Nat) (L : Nat) (locals : Int)
    (hlen : payload.length = L) (hL : L < 128)
    (h0 : 0 ≤ vm.here) (hfit : vm.here + L ≤ MEM_SIZE)
    (hflag : vm.memory (vm.here + L) ≠ 0) (hloc : vm.here + L ≤ locals) :
    (loopIntake fuel vm (L :: payload)).map (fun v => (v.here, v.last))
        = some (vm.here + L, vm.here + L)
      ∧ (fwFrameReceived vm locals (L + 1)).map (fun v => (v.here, v.last))
        = some (vm.here + L, vm.here) := by
  constructor
  · have hfit' : vm.here + (payload.length : Int) ≤ MEM_SIZE := by rw [hlen]; exact hfit
    simp only [loopIntake, low7_id L hL]
    rw [← hlen, intakeWrite_spec fuel payload vm h0 hfit']
    simp only [Option.bind_eq_bind, Option.some_bind]
    rw [if_neg (low_top_bit_clear payload.length (by rw [hlen]; exact hL))]
    rw [hlen]
    rfl
  · have harith : vm.here + ((L + 1 : Nat) : Int) - 1 = vm.here + L := by push_cast; ring
    unfold fwFrameReceived
    dsimp only
    rw [harith]
    rw [if_neg hflag, if_neg (not_lt.mpr hloc)]
    rfl

/-- C6 counterexample: a definition frame of length 1 (payload = the single
    `ret` byte) on the fresh board leaves `here = last = 1`: `last` does not
    point at the definition's first byte 0, and `last < here` fails. -/
theorem c6_counterexample :
    (loopIntake 9 vm0 [0x01, 0x00]).map (fun v => (v.here, v.last)) = some (1, 1)
      ∧ (1:Int) ≠ 0 ∧ ¬((1:Int) < 1) :=
  ⟨by rfl, by decide, by decide⟩

/-- C6 witness: the amended statement at a length-1 definition frame on a board
    whose byte 1 is the Firmware flag. -/
theorem c6_witness :
    (loopIntake 7 vmFlag [1, 0]).map (fun v => (v.here, v.last))
        = some (vmFlag.here + 1, vmFlag.here + 1)
      ∧ (fwFrameReceived vmFlag MEM_SIZE (1 + 1)).map (fun v => (v.here, v.last))
        = some (vmFlag.here + 1, vmFlag.here) :=
  c6_definition_frame_cursors 7 vmFlag [0] 1 MEM_SIZE rfl (by decide) (by decide) (by decide) (by decide) (by decide)

/-- C8 (amended): `resetBoard` establishes `here = last = 0` (so the cursor
    invariant `0 ≤ last ≤ here ≤ MEM_SIZE` holds), and `forget` preserves the
    invariant whenever the popped address is at least `last` — but not in
    general: `forget` is `if (i < here) here = i;` with no lower bound, so a
    negative popped address (pushable with `lit16`) sets `here < 0`, and an
    address below `last` breaks `last ≤ here` (see the counterexample). -/
theorem c8_cursor_invariant :
    (∀ (fuel : Nat) (vm : VM),
        execInstr fuel vm 48
          = some { vm with sIdx := -1, here := 0, last := 0, loopword := -1, loopIterations := 0 })
      ∧ ∀ (fuel : Nat) (vm : VM), dictInvariant vm → 0 ≤ vm.sIdx →
          vm.last ≤ vm.dstack vm.sIdx →
          ((execInstr fuel vm 41).map (fun v => (v.here, v.last))
              = some ((if vm.dstack vm.sIdx < vm.here then vm.dstack vm.sIdx else vm.here),
                  vm.last)
            ∧ 0 ≤ vm.last
            ∧ vm.last ≤ (if vm.dstack vm.sIdx < vm.here then vm.dstack vm.sIdx else vm.here)
            ∧ (if vm.dstack vm.sIdx < vm.here then vm.dstack vm.sIdx else vm.here) ≤ MEM_SIZE) := by
  constructor
  · intro fuel vm
    rfl
  · intro fuel vm hinv hs hlast
    obtain ⟨hi1, hi2, hi3⟩ := hinv
    have hpop : execInstr fuel vm 41
        = (if vm.dstack vm.sIdx < vm.here
            then some { vm with sIdx := vm.sIdx - 1, here := vm.dstack vm.sIdx }
            else some { vm with sIdx := vm.sIdx - 1 }) := by
      show forget fuel vm = _
      unfold forget pop
      rw [popWith_ok _ _ hs]
      simp only [Option.bind_eq_bind, Option.some_bind]
      by_cases hc : vm.dstack vm.sIdx < vm.here
      · rw [if_pos hc, if_pos hc]
        rfl
      · rw [if_neg hc, if_neg hc]
        rfl
    rw [hpop]
    by_cases hc : vm.dstack vm.sIdx < vm.here
    · rw [if_pos hc, if_pos hc]
      exact ⟨rfl, hi1, hlast, by omega⟩
    · rw [if_neg hc, if_neg hc]
      exact ⟨rfl, hi1, hi2, hi3⟩

/-- C8 counterexample: from the post-reset state, the immediate frame
    `{lit16 0xFFFF, forget}` (header byte 0x84, payload `2, 0xFF, 0xFF, 41`)
    executes `forget` with popped address -1 < here, leaving `here = -1`:
    the intake plus two primitives drive the machine out of
    `0 ≤ last ≤ here ≤ MEM_SIZE` even though every step started from reset. -/
theorem c8_counterexample :
    (loopIntake 50 vm0 [0x84, 2, 0xFF, 0xFF, 41]).map (fun v => (v.here, v.last))
        = some (-1, 0)
      ∧ ¬((0:Int) ≤ -1) :=
  ⟨by rfl, by decide⟩

/-- C8 witness: `resetBoard` on the one-value board, and `forget` popping the
    in-range address 3 on a board with `here = 5`, `last = 2`. -/
theorem c8_witness :
    execInstr 1 vmOne 48
        = some { vmOne with sIdx := -1, here := 0, last := 0, loopword := -1, loopIterations := 0 }
      ∧ ((execInstr 1 vmForget 41).map (fun v => (v.here, v.last))
            = some ((if vmForget.dstack vmForget.sIdx < vmForget.here
                then vmForget.dstack vmForget.sIdx else vmForget.here), vmForget.last)
          ∧ 0 ≤ vmForget.last
          ∧ vmForget.last ≤ (if vmForget.dstack vmForget.sIdx < vmForget.here
              then vmForget.dstack vmForget.sIdx else vmForget.here)
          ∧ (if vmForget.dstack vmForget.sIdx < vmForget.here
              then vmForget.dstack vmForget.sIdx else vmForget.here) ≤ MEM_SIZE) :=
  ⟨c8_cursor_invariant.1 1 vmOne,
   c8_cursor_invariant.2 1 vmForget (by exact ⟨by decide, by decide, by decide⟩) (by decide) (by decide)⟩

end brief
